import Mathlib

/-!
Verification of the directory-synchronization core of the
`terraform-provider-adgroups` repository (LDAP client layer, escaping
utilities, entity accessors, and the provider/resource glue the claims
touch), via a shallow embedding of the Go source into Lean.

Strings are modelled as Lean `String` (the Go sources only ever split,
concatenate and compare on ASCII separators, so per-`Char` processing is
faithful); machine integers are modelled as `Int` with explicit range
checks where the Go code performs them.  Fallible calls return
`Except`/`GoResult`.  The external LDAP server and the go-ldap transport
library are modelled only as far as the embedded operations observe them;
each such modelling definition carries a doc comment saying so.
-/

/-- Substring test, modelling Go `strings.Contains` (case-sensitive,
byte-for-byte). An empty needle is contained in every string. -/
def strContainsAux : List Char → List Char → Bool
  | _, [] => true
  | [], _ :: _ => false
  | h :: t, n :: m => if (n :: m).isPrefixOf (h :: t) then true else strContainsAux t (n :: m)

/-- Go `strings.Contains s sub`. -/
def goContains (s sub : String) : Bool :=
  strContainsAux s.data sub.data

/-- Splitting on a single-character separator, modelling Go
`strings.Split` for the one-character separators this codebase uses
(`","` in `MoveGroup`, `"|"` in membership import).  `strings.Split`
of the empty string yields one empty field. -/
def goSplitCh (sep : Char) : List Char → List (List Char)
  | [] => [[]]
  | c :: t =>
    let r := goSplitCh sep t
    if c = sep then [] :: r
    else
      match r with
      | [] => [[c]]
      | h :: t2 => (c :: h) :: t2

/-- Go `strings.Split s sep` for a one-character separator. -/
def goSplit (s : String) (sep : Char) : List String :=
  (goSplitCh sep s.data).map String.mk

/-- Character of a decimal digit value. -/
def digitChar (n : Nat) : Char :=
  Char.ofNat (48 + n)

/-- Whether a character is an ASCII decimal digit. -/
def isDigitCh (c : Char) : Bool :=
  48 ≤ c.toNat && c.toNat ≤ 57

/-- Canonical decimal rendering of a natural number (most significant
digit first), as produced by Go `fmt.Sprintf("%d", _)`. -/
def renderNat (n : Nat) : List Char :=
  if h : n < 10 then [digitChar n]
  else renderNat (n / 10) ++ [digitChar (n % 10)]
termination_by n
decreasing_by omega

/-- Decimal rendering of a signed integer, as produced by Go
`fmt.Sprintf("%d", _)`: an optional minus sign followed by the digits,
no leading zeros. -/
def renderInt (i : Int) : String :=
  if i < 0 then String.mk ('-' :: renderNat i.natAbs)
  else String.mk (renderNat i.toNat)

/-- Numeric value of a list of decimal digit characters. -/
def natOfDigits (ds : List Char) : Nat :=
  ds.foldl (fun a c => 10 * a + (c.toNat - 48)) 0

/-- Go `strconv.ParseInt(s, 10, 64)`: an optional sign followed by one
or more digits, consuming the whole string, with an int64 range check;
any other input is an error (`none`). -/
def goParseInt64 (s : String) : Option Int :=
  match s.data with
  | [] => none
  | c :: rest =>
    let p : Bool × List Char :=
      if c = '-' then (true, rest)
      else if c = '+' then (false, rest)
      else (false, c :: rest)
    if p.2 ≠ [] ∧ p.2.all isDigitCh then
      let n : Int := natOfDigits p.2
      let v : Int := if p.1 then -n else n
      if -(2 ^ 63) ≤ v ∧ v ≤ 2 ^ 63 - 1 then some v else none
    else none

/-- Go `fmt.Sscanf(s, "%d", &x)` viewed as a partial integer parse:
leading white space is skipped, an optional sign and a non-empty run of
digits are consumed (trailing input is ignored), with an int64 range
check.  `some v` means the scan succeeded (item count 1, nil error). -/
def goSscanfD (s : String) : Option Int :=
  let cs := s.data.dropWhile fun c => c = ' ' || c = '\t' || c = '\n' || c = '\r'
  let p : Bool × List Char :=
    match cs with
    | '-' :: t => (true, t)
    | '+' :: t => (false, t)
    | t => (false, t)
  let ds := p.2.takeWhile isDigitCh
  if ds = [] then none
  else
    let n : Int := natOfDigits ds
    let v : Int := if p.1 then -n else n
    if -(2 ^ 63) ≤ v ∧ v ≤ 2 ^ 63 - 1 then some v else none

/-- Special characters replaced by `EscapeDN`
(src/internal/client/client.go lines 145-161). -/
def dnSpecialChars : List Char :=
  ['\\', ',', '+', '"', '<', '>', ';', '=', '\n', '\r', '\x00']

/-- Per-character action of the `strings.NewReplacer` in `EscapeDN`.
All replacer keys are single ASCII characters, so the replacement is a
per-character map. -/
def escapeDNChar (c : Char) : List Char :=
  if c = '\\' then ['\\', '\\']
  else if c = ',' then ['\\', ',']
  else if c = '+' then ['\\', '+']
  else if c = '"' then ['\\', '"']
  else if c = '<' then ['\\', '<']
  else if c = '>' then ['\\', '>']
  else if c = ';' then ['\\', ';']
  else if c = '=' then ['\\', '=']
  else if c = '\n' then ['\\', '0', 'A']
  else if c = '\r' then ['\\', '0', 'D']
  else if c = '\x00' then ['\\', '0', '0']
  else [c]

/-- `EscapeDN` (src/internal/client/client.go lines 144-161): escapes
special characters in a DN component. -/
def EscapeDN (s : String) : String :=
  String.mk (s.data.foldr (fun c r => escapeDNChar c ++ r) [])

/-- Special characters replaced by `EscapeFilter`
(src/internal/client/client.go lines 164-174). -/
def filterSpecialChars : List Char :=
  ['\\', '*', '(', ')', '\x00']

/-- Per-character action of the `strings.NewReplacer` in `EscapeFilter`. -/
def escapeFilterChar (c : Char) : List Char :=
  if c = '\\' then ['\\', '5', 'c']
  else if c = '*' then ['\\', '2', 'a']
  else if c = '(' then ['\\', '2', '8']
  else if c = ')' then ['\\', '2', '9']
  else if c = '\x00' then ['\\', '0', '0']
  else [c]

/-- `EscapeFilter` (src/internal/client/client.go lines 163-174):
escapes special characters in a search-filter component. -/
def EscapeFilter (s : String) : String :=
  String.mk (s.data.foldr (fun c r => escapeFilterChar c ++ r) [])

/-- Port computation of `ADGroupsProvider.Configure` (src/unnamed/part_001
lines 105-117): when the configured port is 0 (absent), a non-empty
`AD_PORT` environment value sends the code into a branch that assigns the
fallback 389 without parsing the variable; only with `AD_PORT` empty does
the TLS test (configuration value or `AD_USE_TLS == "true"`) pick 636
over 389. -/
def configurePort (configPort : Int) (adPortEnv : String) (useTLS : Bool)
    (adUseTLSEnv : String) : Int :=
  if configPort = 0 then
    if adPortEnv ≠ "" then 389
    else if useTLS || adUseTLSEnv = "true" then 636
    else 389
  else configPort

/-- `GroupMembershipResource.ImportState` (src/README.md lines 543-560):
splits the import identifier on `"|"`; unless this yields exactly two
parts it adds a validation diagnostic and sets no attributes (`none`);
otherwise it sets the `id`, `group_dn` and `member_dn` attributes
(returned in that order). -/
def GroupMembershipResource.ImportState (id : String) :
    Option (String × String × String) :=
  match goSplit id '|' with
  | [g, m] => some (id, g, m)
  | _ => none

/-- GroupType mapping of `GroupsDataSource.Read`
(src/internal/provider/data_source_groups.go lines 166-171): for a
non-empty `groupType` string the code runs `fmt.Sscanf` and, when the
scan succeeds, stores the returned item count (always 1 for the single
`%d` operand) instead of the scanned value; otherwise the attribute is
left null (`none`). -/
def GroupsDataSource.groupTypeAttr (groupTypeStr : String) : Option Int :=
  if groupTypeStr ≠ "" then
    match goSscanfD groupTypeStr with
    | some _ => some 1
    | none => none
  else none

/-- Directory entry: a DN together with its attributes, in server order.
Models `ldap.Entry` as far as this codebase reads it. -/
structure Entry where
  dn : String
  attrs : List (String × List String)
deriving DecidableEq, Repr

/-- Values of a named attribute, modelling go-ldap
`Entry.GetAttributeValues` (exact name match, empty list when absent). -/
def Entry.getAttributeValues (e : Entry) (name : String) : List String :=
  match e.attrs.find? fun p => p.1 = name with
  | some p => p.2
  | none => []

/-- First value of a named attribute, modelling go-ldap
`Entry.GetAttributeValue` (empty string when absent). -/
def Entry.getAttributeValue (e : Entry) (name : String) : String :=
  (e.getAttributeValues name).headD ""

/-- Models one live LDAP session: the server's directory contents plus
the diagnostic text the server attaches to result-code errors (this text
is server-chosen and carried abstractly). -/
structure Conn where
  directory : List Entry
  diag : String
deriving DecidableEq, Repr

/-- The `Client` struct (src/internal/client/client.go lines 12-20),
restricted to the fields the embedded operations read: the possibly-nil
connection and the configured base DN.  Credential and address fields
are only used while connecting and are omitted. -/
structure Client where
  conn : Option Conn
  baseDN : String
deriving DecidableEq, Repr

/-- Search scopes used by this codebase. -/
inductive Scope where
  | baseObject
  | wholeSubtree
deriving DecidableEq, Repr

/-- Models `ldap.SearchRequest` as far as this codebase fills it in. -/
structure SearchRequest where
  base : String
  scope : Scope
  filter : String
  attributes : List String
deriving DecidableEq, Repr

/-- Models `ldap.AddRequest`: target DN and attribute list in call
order. -/
structure AddRequest where
  dn : String
  attrs : List (String × List String)
deriving DecidableEq, Repr

/-- One change of an `ldap.ModifyRequest`. -/
inductive ModifyOp where
  | addVals (attr : String) (vals : List String)
  | delVals (attr : String) (vals : List String)
  | replaceVals (attr : String) (vals : List String)
deriving DecidableEq, Repr

/-- Models `ldap.ModifyRequest`: target DN and changes in call order. -/
structure ModifyRequest where
  dn : String
  ops : List ModifyOp
deriving DecidableEq, Repr

/-- Models `ldap.ModifyDNRequest` as built by `MoveGroup`. -/
structure ModifyDNRequest where
  dn : String
  newRDN : String
  delOldRDN : Bool
  newSuperior : String
deriving DecidableEq, Repr

/-- Outcome of a Go call: a value, an error (its message), or a runtime
crash (nil-pointer dereference panic). -/
inductive GoResult (α : Type) where
  | ok (a : α)
  | err (msg : String)
  | crash
deriving DecidableEq, Repr

/-- Error text the go-ldap transport produces for LDAP result code 32,
`fmt.Sprintf("LDAP Result Code %d %q: %s", 32, "No Such Object", diag)`.
Models the external library; note the capitalized phrase. -/
def noSuchObjectErr (diag : String) : String :=
  "LDAP Result Code 32 \x22No Such Object\x22: " ++ diag

/-- Error text the go-ldap transport produces for LDAP result code 16
(`No Such Attribute`), returned by directory servers for a modify-delete
of an attribute value that is not present.  Models the external
library. -/
def noSuchAttributeErr (diag : String) : String :=
  "LDAP Result Code 16 \x22No Such Attribute\x22: " ++ diag

/-- Error text the go-ldap transport produces for LDAP result code 68
(`Entry Already Exists`).  Models the external library. -/
def entryExistsErr (diag : String) : String :=
  "LDAP Result Code 68 \x22Entry Already Exists\x22: " ++ diag

/-- Error text the go-ldap transport produces for LDAP result code 20
(`Attribute Or Value Exists`).  Models the external library. -/
def valueExistsErr (diag : String) : String :=
  "LDAP Result Code 20 \x22Attribute Or Value Exists\x22: " ++ diag

/-- Parses the simple equality filters this codebase issues
(`(attr=value)`), modelling the directory server's filter parsing as far
as those filters exercise it. -/
def parseEqFilter (filter : String) : Option (String × String) :=
  match filter.data with
  | '(' :: rest =>
    if rest.getLast? = some ')' then
      match goSplitCh '=' rest.dropLast with
      | [a, v] => some (String.mk a, String.mk v)
      | _ => none
    else none
  | _ => none

/-- Models the directory server's evaluation of an equality filter
against one entry: the named attribute must carry the given value. -/
def evalFilter (filter : String) (e : Entry) : Bool :=
  match parseEqFilter filter with
  | some (a, v) => (e.getAttributeValues a).contains v
  | none => false

/-- Models the directory server's processing of a search request: the
entries in scope whose attributes satisfy the filter, in directory
order.  Attribute selection is not modelled (every caller requests all
the attributes it later reads). -/
def connSearch (co : Conn) (req : SearchRequest) : List Entry :=
  match req.scope with
  | .baseObject =>
    co.directory.filter fun e => e.dn == req.base && evalFilter req.filter e
  | .wholeSubtree =>
    co.directory.filter fun e =>
      (e.dn == req.base || (String.mk (',' :: req.base.data)).data.isSuffixOf e.dn.data)
        && evalFilter req.filter e

/-- Models the directory server's processing of an add request: fails
with `Entry Already Exists` when the DN is present, otherwise stores the
entry. -/
def connAdd (co : Conn) (req : AddRequest) : Except String Conn :=
  if co.directory.any fun e => e.dn == req.dn then
    .error (entryExistsErr co.diag)
  else
    .ok { co with directory := co.directory ++ [⟨req.dn, req.attrs⟩] }

/-- Models the directory server's processing of one modify change on an
entry: deleting values that are not present (or a missing attribute)
fails with `No Such Attribute`; adding a value already present fails
with `Attribute Or Value Exists`; replace overwrites (empty value list
removes the attribute). -/
def applyModifyOp (diag : String) (e : Entry) : ModifyOp → Except String Entry
  | .addVals attr vals =>
    let cur := e.getAttributeValues attr
    if vals.any fun v => cur.contains v then .error (valueExistsErr diag)
    else if e.attrs.any fun p => p.1 == attr then
      .ok { e with attrs := e.attrs.map fun p => if p.1 == attr then (p.1, p.2 ++ vals) else p }
    else .ok { e with attrs := e.attrs ++ [(attr, vals)] }
  | .delVals attr vals =>
    let cur := e.getAttributeValues attr
    if !(e.attrs.any fun p => p.1 == attr) then .error (noSuchAttributeErr diag)
    else if vals = [] then
      .ok { e with attrs := e.attrs.filter fun p => !(p.1 == attr) }
    else if vals.all fun v => cur.contains v then
      .ok { e with attrs := e.attrs.map fun p =>
        if p.1 == attr then (p.1, p.2.filter fun v => !(vals.contains v)) else p }
    else .error (noSuchAttributeErr diag)
  | .replaceVals attr vals =>
    if vals = [] then
      .ok { e with attrs := e.attrs.filter fun p => !(p.1 == attr) }
    else if e.attrs.any fun p => p.1 == attr then
      .ok { e with attrs := e.attrs.map fun p => if p.1 == attr then (p.1, vals) else p }
    else .ok { e with attrs := e.attrs ++ [(attr, vals)] }

/-- Applies the changes of a modify request in order, stopping at the
first failure. -/
def applyModifyOps (diag : String) (e : Entry) : List ModifyOp → Except String Entry
  | [] => .ok e
  | op :: rest =>
    match applyModifyOp diag e op with
    | .error msg => .error msg
    | .ok e2 => applyModifyOps diag e2 rest

/-- Models the directory server's processing of a modify request: fails
with `No Such Object` when the target DN is absent. -/
def connModify (co : Conn) (req : ModifyRequest) : Except String Conn :=
  match co.directory.find? fun e => e.dn == req.dn with
  | none => .error (noSuchObjectErr co.diag)
  | some e =>
    match applyModifyOps co.diag e req.ops with
    | .error msg => .error msg
    | .ok e2 =>
      .ok { co with directory := co.directory.map fun x => if x.dn == req.dn then e2 else x }

/-- Models the directory server's processing of a delete request: fails
with `No Such Object` when the target DN is absent. -/
def connDel (co : Conn) (dn : String) : Except String Conn :=
  if co.directory.any fun e => e.dn == dn then
    .ok { co with directory := co.directory.filter fun e => !(e.dn == dn) }
  else .error (noSuchObjectErr co.diag)

/-- Models the directory server's processing of a modify-DN (rename)
request: fails with `No Such Object` when the target DN is absent,
otherwise the entry is re-anchored under the new superior. -/
def connModifyDN (co : Conn) (req : ModifyDNRequest) : Except String Conn :=
  if co.directory.any fun e => e.dn == req.dn then
    .ok { co with directory := co.directory.map fun x =>
      if x.dn == req.dn then { x with dn := req.newRDN ++ "," ++ req.newSuperior } else x }
  else .error (noSuchObjectErr co.diag)

/-- `Client.Search` (src/internal/client/client.go lines 89-100): fails
fast when no connection is established, otherwise runs the search and
wraps transport errors. -/
def Client.Search (c : Client) (req : SearchRequest) : GoResult (List Entry × Client) :=
  match c.conn with
  | none => .err "LDAP connection is not established"
  | some co => .ok (connSearch co req, c)

/-- `Client.Add` (src/internal/client/client.go lines 103-114): fails
fast when no connection is established, otherwise wraps transport errors
as `LDAP add failed`. -/
def Client.Add (c : Client) (req : AddRequest) : GoResult Client :=
  match c.conn with
  | none => .err "LDAP connection is not established"
  | some co =>
    match connAdd co req with
    | .error e => .err ("LDAP add failed: " ++ e)
    | .ok co2 => .ok { c with conn := some co2 }

/-- `Client.Modify` (src/internal/client/client.go lines 117-128): fails
fast when no connection is established, otherwise wraps transport errors
as `LDAP modify failed`. -/
def Client.Modify (c : Client) (req : ModifyRequest) : GoResult Client :=
  match c.conn with
  | none => .err "LDAP connection is not established"
  | some co =>
    match connModify co req with
    | .error e => .err ("LDAP modify failed: " ++ e)
    | .ok co2 => .ok { c with conn := some co2 }

/-- `Client.Delete` (src/internal/client/client.go lines 131-142): fails
fast when no connection is established, otherwise wraps transport errors
as `LDAP delete failed`. -/
def Client.Delete (c : Client) (dn : String) : GoResult Client :=
  match c.conn with
  | none => .err "LDAP connection is not established"
  | some co =>
    match connDel co dn with
    | .error e => .err ("LDAP delete failed: " ++ e)
    | .ok co2 => .ok { c with conn := some co2 }

/-- The Go `Group` struct (src/unnamed/part_002 lines 139-151), named
`ADGroup` here to avoid clashing with the Mathlib algebraic class. -/
structure ADGroup where
  dn : String
  cn : String
  name : String
  samAccountName : String
  description : String
  groupType : String
  managedBy : String
  members : List String
  memberOf : List String
  objectGUID : String
  objectSid : String
deriving DecidableEq, Repr

/-- Entry-to-Group mapping of `Client.GetGroup`
(src/unnamed/part_002 lines 187-200). -/
def groupFromEntry (entry : Entry) : ADGroup where
  dn := entry.dn
  cn := entry.getAttributeValue "cn"
  name := entry.getAttributeValue "name"
  samAccountName := entry.getAttributeValue "sAMAccountName"
  description := entry.getAttributeValue "description"
  groupType := entry.getAttributeValue "groupType"
  managedBy := entry.getAttributeValue "managedBy"
  members := entry.getAttributeValues "member"
  memberOf := entry.getAttributeValues "memberOf"
  objectGUID := entry.getAttributeValue "objectGUID"
  objectSid := entry.getAttributeValue "objectSid"

/-- Attribute list requested by the group accessors
(src/unnamed/part_002 lines 163-174). -/
def groupSearchAttrs : List String :=
  ["cn", "name", "sAMAccountName", "description", "groupType", "managedBy",
   "member", "memberOf", "objectGUID", "objectSid"]

/-- `Client.GetGroup` (src/unnamed/part_002 lines 154-203): base-scope
search anchored at `dn` filtered to `(objectClass=group)`; zero entries
is a `group not found` error, otherwise the first entry is mapped. -/
def Client.GetGroup (c : Client) (dn : String) : GoResult (ADGroup × Client) :=
  match c.Search ⟨dn, .baseObject, "(objectClass=group)", groupSearchAttrs⟩ with
  | .crash => .crash
  | .err e => .err ("failed to search for group " ++ dn ++ ": " ++ e)
  | .ok (entries, c2) =>
    match entries with
    | [] => .err ("group not found: " ++ dn)
    | entry :: _ => .ok (groupFromEntry entry, c2)

/-- Add request built by `Client.CreateGroup`
(src/unnamed/part_002 lines 263-273): object classes `top` and `group`;
`cn`, `name` and `sAMAccountName` all set to the raw `cn`; `description`
only when non-empty; `groupType` rendered with `fmt.Sprintf("%d", _)`. -/
def buildGroupAddRequest (dn cn description : String) (groupType : Int) : AddRequest where
  dn := dn
  attrs :=
    [("objectClass", ["top", "group"]), ("cn", [cn]), ("name", [cn]),
     ("sAMAccountName", [cn])]
      ++ (if description ≠ "" then [("description", [description])] else [])
      ++ [("groupType", [renderInt groupType])]

/-- `Client.CreateGroup` (src/unnamed/part_002 lines 260-282): builds
the DN as `CN=<EscapeDN cn>,<ou>`, issues the add request, and re-reads
the created object by that DN. -/
def Client.CreateGroup (c : Client) (ou cn description : String) (groupType : Int) :
    GoResult (ADGroup × Client) :=
  let dn := "CN=" ++ EscapeDN cn ++ "," ++ ou
  match c.Add (buildGroupAddRequest dn cn description groupType) with
  | .crash => .crash
  | .err e => .err ("failed to create group " ++ dn ++ ": " ++ e)
  | .ok c2 => c2.GetGroup dn

/-- `Client.DeleteGroup` (src/unnamed/part_002 lines 305-314): issues
the delete request and wraps any error. -/
def Client.DeleteGroup (c : Client) (dn : String) : GoResult Client :=
  match c.Delete dn with
  | .crash => .crash
  | .err e => .err ("failed to delete group " ++ dn ++ ": " ++ e)
  | .ok c2 => .ok c2

/-- `Client.RemoveMemberFromGroup` (src/unnamed/part_002 lines 330-340):
a single modify request deleting one value of the `member` attribute. -/
def Client.RemoveMemberFromGroup (c : Client) (groupDN memberDN : String) : GoResult Client :=
  match c.Modify ⟨groupDN, [.delVals "member" [memberDN]]⟩ with
  | .crash => .crash
  | .err e =>
    .err ("failed to remove member " ++ memberDN ++ " from group " ++ groupDN ++ ": " ++ e)
  | .ok c2 => .ok c2

/-- Continuation of `Client.MoveGroup` after the split-length guard
(src/unnamed/part_002 lines 405-416), with `cn` the first DN component:
the code dereferences `c.conn` directly with no nil check, so a nil
connection is a crash, not an error. -/
def Client.MoveGroupRename (c : Client) (cn currentDN newParentDN : String) : GoResult Client :=
  match c.conn with
  | none => .crash
  | some co =>
    match connModifyDN co ⟨currentDN, cn, true, newParentDN⟩ with
    | .error e =>
      .err ("failed to move group from " ++ currentDN ++ " to "
        ++ (cn ++ "," ++ newParentDN) ++ ": " ++ e)
    | .ok co2 => .ok { c with conn := some co2 }

/-- `Client.MoveGroup` (src/unnamed/part_002 lines 398-417): splits the
current DN on `","`, errors with `invalid DN format` when the split is
empty, and otherwise renames using the first component as the new RDN. -/
def Client.MoveGroup (c : Client) (currentDN newParentDN : String) : GoResult Client :=
  match goSplit currentDN ',' with
  | [] => .err ("invalid DN format: " ++ currentDN)
  | cn :: _ => c.MoveGroupRename cn currentDN newParentDN

/-- `GroupResource.Delete` (src/unnamed/part_000 lines 338-357): calls
`DeleteGroup` and adds a diagnostic (`some` message) unless the error
text contains the substring `not found`, in which case the already
deleted group is treated as success (`none`). -/
def GroupResource.Delete (c : Client) (dn : String) : Option String × Client :=
  match c.DeleteGroup dn with
  | .crash => (some "crash", c)
  | .ok c2 => (none, c2)
  | .err e =>
    if !(goContains e "not found") then
      (some ("Unable to delete group, got error: " ++ e), c)
    else (none, c)

/-- `GroupMembershipResource.Delete` (src/README.md lines 515-541):
calls `RemoveMemberFromGroup` and treats errors whose text contains
`not found`, `does not exist` or `no such object` as an already-removed
edge (success, `none`); any other error adds a diagnostic. -/
def GroupMembershipResource.Delete (c : Client) (groupDN memberDN : String) :
    Option String × Client :=
  match c.RemoveMemberFromGroup groupDN memberDN with
  | .crash => (some "crash", c)
  | .ok c2 => (none, c2)
  | .err e =>
    if goContains e "not found" || goContains e "does not exist"
        || goContains e "no such object" then
      (none, c)
    else (some ("Unable to remove member from group, got error: " ++ e), c)

/-! ### Helper lemmas -/

/-- Escaping a character outside the DN special set leaves it alone. -/
theorem escapeDNChar_plain {c : Char} (h : c ∉ dnSpecialChars) : escapeDNChar c = [c] := by
  simp only [dnSpecialChars, List.mem_cons, List.mem_singleton, not_or] at h
  obtain ⟨h1, h2, h3, h4, h5, h6, h7, h8, h9, h10, h11⟩ := h
  simp [escapeDNChar, h1, h2, h3, h4, h5, h6, h7, h8, h9, h10, h11]

/-- Escaping a character outside the filter special set leaves it alone. -/
theorem escapeFilterChar_plain {c : Char} (h : c ∉ filterSpecialChars) :
    escapeFilterChar c = [c] := by
  simp only [filterSpecialChars, List.mem_cons, List.mem_singleton, not_or] at h
  obtain ⟨h1, h2, h3, h4, h5⟩ := h
  simp [escapeFilterChar, h1, h2, h3, h4, h5]

/-- List form of the escaping functions is the identity on lists free of
the given special characters. -/
theorem escFold_id (f : Char → List Char) (l : List Char)
    (h : ∀ c ∈ l, f c = [c]) : l.foldr (fun c r => f c ++ r) [] = l := by
  induction l with
  | nil => rfl
  | cons c t ih =>
    rw [List.foldr_cons, ih fun x hx => h x (List.mem_cons_of_mem _ hx),
      h c (List.mem_cons_self _ _)]
    rfl

/-- Number of fields produced by a single-character split: one more than
the number of separator occurrences. -/
theorem goSplitCh_length (sep : Char) (l : List Char) :
    (goSplitCh sep l).length = l.count sep + 1 := by
  induction l with
  | nil => simp [goSplitCh]
  | cons c t ih =>
    by_cases hc : c = sep
    · subst hc
      simp [goSplitCh, ih, List.count_cons]
    · have hne : goSplitCh sep t ≠ [] := by
        intro h0
        rw [h0] at ih
        simp at ih
      obtain ⟨hd, tl, hr⟩ := List.exists_cons_of_ne_nil hne
      rw [hr] at ih
      simp only [goSplitCh, if_neg hc, hr]
      simp only [List.length_cons] at ih ⊢
      rw [List.count_cons]
      simp [hc, ih]

/-- The decimal rendering is never empty. -/
theorem renderNat_ne_nil (n : Nat) : renderNat n ≠ [] := by
  unfold renderNat
  split <;> simp

/-- Code point of a digit character. -/
theorem digitChar_toNat {n : Nat} (h : n < 10) : (digitChar n).toNat = 48 + n := by
  interval_cases n <;> decide

/-- Digit characters pass the digit test. -/
theorem isDigitCh_digitChar {n : Nat} (h : n < 10) : isDigitCh (digitChar n) = true := by
  interval_cases n <;> decide

/-- Every character of a decimal rendering is a digit. -/
theorem renderNat_digits (n : Nat) : ∀ c ∈ renderNat n, isDigitCh c = true := by
  induction n using Nat.strong_induction_on with
  | _ n ih =>
    intro c hc
    unfold renderNat at hc
    split at hc
    next h =>
      simp only [List.mem_singleton] at hc
      subst hc
      exact isDigitCh_digitChar h
    next h =>
      rw [List.mem_append] at hc
      rcases hc with hc | hc
      · exact ih (n / 10) (by omega) c hc
      · simp only [List.mem_singleton] at hc
        subst hc
        exact isDigitCh_digitChar (Nat.mod_lt _ (by norm_num))

/-- Folding the decimal-accumulation step over a rendering recovers the
number (with the accumulator shifted by the digit count). -/
theorem renderNat_foldl (n : Nat) :
    ∀ a : Nat, (renderNat n).foldl (fun a c => 10 * a + (c.toNat - 48)) a
      = a * 10 ^ (renderNat n).length + n := by
  induction n using Nat.strong_induction_on with
  | _ n ih =>
    intro a
    by_cases h : n < 10
    · unfold renderNat
      rw [dif_pos h]
      simp only [List.foldl_cons, List.foldl_nil, List.length_singleton]
      rw [digitChar_toNat h]
      omega
    · unfold renderNat
      rw [dif_neg h]
      rw [List.foldl_append, ih (n / 10) (by omega) a]
      simp only [List.foldl_cons, List.foldl_nil, List.length_append,
        List.length_singleton]
      rw [digitChar_toNat (Nat.mod_lt _ (by norm_num)), pow_succ, ← mul_assoc]
      have hmod : 10 * (n / 10) + n % 10 = n := Nat.div_add_mod n 10
      generalize a * 10 ^ (renderNat (n / 10)).length = M
      omega

/-- Round trip: the digit fold inverts the decimal rendering. -/
theorem natOfDigits_renderNat (n : Nat) : natOfDigits (renderNat n) = n := by
  have h := renderNat_foldl n 0
  simpa [natOfDigits] using h

/-- Digit characters are not a minus sign. -/
theorem digit_ne_minus {c : Char} (h : isDigitCh c = true) : c ≠ '-' := by
  intro he
  subst he
  exact absurd h (by decide)

/-- Digit characters are not a plus sign. -/
theorem digit_ne_plus {c : Char} (h : isDigitCh c = true) : c ≠ '+' := by
  intro he
  subst he
  exact absurd h (by decide)

/-- Unfolding equation of `goParseInt64` on a non-empty string. -/
theorem goParseInt64_cons (c : Char) (rest : List Char) :
    goParseInt64 (String.mk (c :: rest)) =
      (let p : Bool × List Char :=
        if c = '-' then (true, rest)
        else if c = '+' then (false, rest)
        else (false, c :: rest)
      if p.2 ≠ [] ∧ p.2.all isDigitCh then
        let n : Int := natOfDigits p.2
        let v : Int := if p.1 then -n else n
        if -(2 ^ 63) ≤ v ∧ v ≤ 2 ^ 63 - 1 then some v else none
      else none) := rfl

/-- Round trip through the embedded Go formatting and parsing: parsing
the decimal rendering of an int64-range integer recovers it. -/
theorem goParseInt64_renderInt (g : Int) (h1 : -(2 ^ 63) ≤ g) (h2 : g ≤ 2 ^ 63 - 1) :
    goParseInt64 (renderInt g) = some g := by
  unfold renderInt
  by_cases hg : g < 0
  · rw [if_pos hg, goParseInt64_cons]
    have hdig : (renderNat g.natAbs).all isDigitCh = true :=
      List.all_eq_true.mpr (renderNat_digits g.natAbs)
    have hv : -((g.natAbs : Nat) : Int) = g := by omega
    simp [renderNat_ne_nil g.natAbs, hdig, natOfDigits_renderNat, hv, h1, h2]
    rw [abs_of_neg hg]
    omega
  · rw [if_neg hg]
    obtain ⟨c, rest, hcr⟩ := List.exists_cons_of_ne_nil (renderNat_ne_nil g.toNat)
    rw [hcr, goParseInt64_cons]
    have hc : isDigitCh c = true :=
      renderNat_digits g.toNat c (hcr ▸ List.mem_cons_self c rest)
    rw [if_neg (digit_ne_minus hc), if_neg (digit_ne_plus hc)]
    have hdig : (c :: rest).all isDigitCh = true := by
      rw [← hcr]
      exact List.all_eq_true.mpr (renderNat_digits g.toNat)
    have hv : ((g.toNat : Nat) : Int) = g := by omega
    simp only [← hcr]
    simp [renderNat_ne_nil g.toNat, hdig, ← hcr, natOfDigits_renderNat, hv, h1, h2]
    exact ⟨renderNat_digits g.toNat, by omega, by omega⟩

/-- Mapping the freshly stored add-request entry back through
`groupFromEntry` yields exactly the written values: `cn`, `name` and
`sAMAccountName` are the raw `cn`, the description round-trips (an
absent attribute reads back as the empty string), and the group type is
the decimal rendering. -/
theorem groupFromEntry_addRequest (dn cn desc : String) (g : Int) :
    groupFromEntry ⟨dn, (buildGroupAddRequest dn cn desc g).attrs⟩ =
      { dn := dn, cn := cn, name := cn, samAccountName := cn, description := desc,
        groupType := renderInt g, managedBy := "", members := [], memberOf := [],
        objectGUID := "", objectSid := "" } := by
  by_cases hd : desc = "" <;>
    simp [groupFromEntry, Entry.getAttributeValue, Entry.getAttributeValues,
      buildGroupAddRequest, List.find?, hd]

/-- The freshly stored add-request entry satisfies the
`(objectClass=group)` filter. -/
theorem evalFilter_addRequest (dn cn desc : String) (g : Int) :
    evalFilter "(objectClass=group)" ⟨dn, (buildGroupAddRequest dn cn desc g).attrs⟩ = true := by
  have hp : parseEqFilter "(objectClass=group)" = some ("objectClass", "group") := by decide
  by_cases hd : desc = "" <;>
    simp [evalFilter, hp, Entry.getAttributeValues, buildGroupAddRequest, List.find?, hd]

/-- Reading a group by DN when the directory holds exactly one entry at
that DN (stored last) and that entry passes the group filter returns its
mapped form and leaves the directory unchanged. -/
theorem GetGroup_fresh (d : List Entry) (diag base dn : String)
    (attrs : List (String × List String))
    (hfresh : ∀ e ∈ d, e.dn ≠ dn)
    (hgrp : evalFilter "(objectClass=group)" ⟨dn, attrs⟩ = true) :
    Client.GetGroup ⟨some ⟨d ++ [⟨dn, attrs⟩], diag⟩, base⟩ dn
      = .ok (groupFromEntry ⟨dn, attrs⟩, ⟨some ⟨d ++ [⟨dn, attrs⟩], diag⟩, base⟩) := by
  have hfil : d.filter (fun e => e.dn == dn && evalFilter "(objectClass=group)" e) = [] := by
    rw [List.filter_eq_nil_iff]
    intro e he
    simp [hfresh e he]
  unfold Client.GetGroup Client.Search connSearch
  simp [List.filter_append, hfil, hgrp]

/-- Evaluation of `Client.CreateGroup` on a connected client whose
directory does not yet hold the target DN: the add succeeds, the entry
is stored with exactly the built attributes, and the re-read returns the
written values. -/
theorem CreateGroup_fresh (d : List Entry) (diag base ou cn desc : String) (g : Int)
    (hfresh : ∀ e ∈ d, e.dn ≠ "CN=" ++ EscapeDN cn ++ "," ++ ou) :
    Client.CreateGroup ⟨some ⟨d, diag⟩, base⟩ ou cn desc g =
      .ok ({ dn := "CN=" ++ EscapeDN cn ++ "," ++ ou, cn := cn, name := cn,
             samAccountName := cn, description := desc, groupType := renderInt g,
             managedBy := "", members := [], memberOf := [], objectGUID := "",
             objectSid := "" },
           ⟨some ⟨d ++ [⟨"CN=" ++ EscapeDN cn ++ "," ++ ou,
              (buildGroupAddRequest ("CN=" ++ EscapeDN cn ++ "," ++ ou) cn desc g).attrs⟩],
            diag⟩, base⟩) := by
  have hany : (d.any fun e => e.dn == ("CN=" ++ EscapeDN cn ++ "," ++ ou)) = false := by
    rw [List.any_eq_false]
    intro e he
    simp [hfresh e he]
  have h2 := evalFilter_addRequest ("CN=" ++ EscapeDN cn ++ "," ++ ou) cn desc g
  have h1 := groupFromEntry_addRequest ("CN=" ++ EscapeDN cn ++ "," ++ ou) cn desc g
  simp only [buildGroupAddRequest] at h1 h2
  unfold Client.CreateGroup Client.Add connAdd
  simp only [buildGroupAddRequest]
  simp only [hany, Bool.false_eq_true, if_false]
  rw [GetGroup_fresh d diag base _ _ hfresh h2, h1]

/-! ### Claim theorems -/

/-- C3: for every string containing none of the special characters each
escaper handles (for `EscapeDN`: backslash, comma, plus, double quote,
angle brackets, semicolon, equals, newline, carriage return, NUL; for
`EscapeFilter`: backslash, asterisk, parentheses, NUL), `EscapeDN` and
`EscapeFilter` return the input unchanged. -/
theorem escapes_identity_on_plain_strings :
    (∀ s : String, (∀ c ∈ s.data, c ∉ dnSpecialChars) → EscapeDN s = s) ∧
    (∀ s : String, (∀ c ∈ s.data, c ∉ filterSpecialChars) → EscapeFilter s = s) := by
  constructor
  · intro s h
    obtain ⟨l⟩ := s
    exact congrArg String.mk (escFold_id escapeDNChar l fun c hc => escapeDNChar_plain (h c hc))
  · intro s h
    obtain ⟨l⟩ := s
    exact congrArg String.mk
      (escFold_id escapeFilterChar l fun c hc => escapeFilterChar_plain (h c hc))

/-- Witness for C3 at the concrete plain string `Engineering Team`. -/
theorem escapes_identity_witness :
    EscapeDN "Engineering Team" = "Engineering Team" ∧
    EscapeFilter "Engineering Team" = "Engineering Team" :=
  ⟨escapes_identity_on_plain_strings.1 "Engineering Team" (by decide),
   escapes_identity_on_plain_strings.2 "Engineering Team" (by decide)⟩

/-- C5: the import identifier `CN=g,DC=x|CN=u,DC=x` parses into group DN
`CN=g,DC=x` and member DN `CN=u,DC=x`, and any identifier without
exactly one `|` separator is rejected with no attributes set. -/
theorem membership_import_parse :
    GroupMembershipResource.ImportState "CN=g,DC=x|CN=u,DC=x"
      = some ("CN=g,DC=x|CN=u,DC=x", "CN=g,DC=x", "CN=u,DC=x") ∧
    ∀ id : String, id.data.count '|' ≠ 1 →
      GroupMembershipResource.ImportState id = none := by
  refine ⟨by decide, ?_⟩
  intro id h
  have hlen : (goSplit id '|').length = id.data.count '|' + 1 := by
    unfold goSplit
    rw [List.length_map, goSplitCh_length]
  unfold GroupMembershipResource.ImportState
  rcases hsp : goSplit id '|' with _ | ⟨a, _ | ⟨b, _ | ⟨c, r⟩⟩⟩
  · rfl
  · rfl
  · exfalso
    rw [hsp] at hlen
    simp at hlen
    omega
  · rfl

/-- Witness for C5 at concrete malformed identifiers (zero and two
separators). -/
theorem membership_import_witness :
    GroupMembershipResource.ImportState "CN=g,DC=x" = none ∧
    GroupMembershipResource.ImportState "a|b|c" = none :=
  ⟨membership_import_parse.2 "CN=g,DC=x" (by decide),
   membership_import_parse.2 "a|b|c" (by decide)⟩

/-- C7 counterexample: with no configured port (0), `AD_PORT` set
non-empty and TLS requested, the effective port is 389, not the claimed
636. -/
theorem configurePort_tls_env_counterexample :
    configurePort 0 "636" true "" = 389 ∧ configurePort 0 "636" true "" ≠ 636 := by
  decide

/-- C7 (amended): with no configured port (0) the effective port is 389
when `AD_PORT` is set non-empty (regardless of TLS; the variable's value
is not parsed), and only with `AD_PORT` empty does TLS (configured or
via `AD_USE_TLS`) select 636 over 389; a non-zero configured port is
used as is. -/
theorem configurePort_defaults (p : Int) (env : String) (tls : Bool) (tlsEnv : String) :
    (p = 0 → env ≠ "" → configurePort p env tls tlsEnv = 389) ∧
    (p = 0 → env = "" →
      configurePort p env tls tlsEnv = if tls || tlsEnv = "true" then 636 else 389) ∧
    (p ≠ 0 → configurePort p env tls tlsEnv = p) := by
  unfold configurePort
  refine ⟨fun h1 h2 => ?_, fun h1 h2 => ?_, fun h1 => ?_⟩
  · rw [if_pos h1, if_pos h2]
  · rw [if_pos h1, if_neg (show ¬env ≠ "" from fun hc => hc h2)]
  · rw [if_neg h1]

/-- Witness for C7's amended statement at concrete configurations. -/
theorem configurePort_defaults_witness :
    configurePort 0 "1234" true "" = 389 ∧ configurePort 0 "" true "" = 636 ∧
    configurePort 0 "" false "" = 389 ∧ configurePort 1636 "" true "" = 1636 := by
  refine ⟨(configurePort_defaults 0 "1234" true "").1 rfl (by decide), ?_, ?_,
    (configurePort_defaults 1636 "" true "").2.2 (by decide)⟩
  · have h := (configurePort_defaults 0 "" true "").2.1 rfl rfl
    simpa using h
  · have h := (configurePort_defaults 0 "" false "").2.1 rfl rfl
    simpa using h

/-- C9: in the groups listing data source, every group whose directory
`groupType` is a non-empty string that scans as a decimal integer gets
`group_type` 1 (the `fmt.Sscanf` item count is stored instead of the
parsed value); an empty or unscannable `groupType` leaves the attribute
null. -/
theorem groupsDataSource_groupType_itemCount (s : String) :
    (∀ v : Int, s ≠ "" → goSscanfD s = some v →
      GroupsDataSource.groupTypeAttr s = some 1) ∧
    ((s = "" ∨ goSscanfD s = none) → GroupsDataSource.groupTypeAttr s = none) := by
  unfold GroupsDataSource.groupTypeAttr
  constructor
  · intro v hne hv
    rw [if_pos hne, hv]
  · rintro (h | h)
    · rw [if_neg (show ¬s ≠ "" from fun hc => hc h)]
    · by_cases hne : s = ""
      · rw [if_neg (show ¬s ≠ "" from fun hc => hc hne)]
      · rw [if_pos hne, h]

/-- Witness for C9: `"8"` and `"-2147483646"` both report group type 1;
the empty and an unscannable string report null. -/
theorem groupsDataSource_groupType_witness :
    GroupsDataSource.groupTypeAttr "8" = some 1 ∧
    GroupsDataSource.groupTypeAttr "-2147483646" = some 1 ∧
    GroupsDataSource.groupTypeAttr "" = none ∧
    GroupsDataSource.groupTypeAttr "groupstuff" = none :=
  ⟨(groupsDataSource_groupType_itemCount "8").1 8 (by decide) (by decide),
   (groupsDataSource_groupType_itemCount "-2147483646").1 (-2147483646) (by decide) (by decide),
   (groupsDataSource_groupType_itemCount "").2 (Or.inl rfl),
   (groupsDataSource_groupType_itemCount "groupstuff").2 (Or.inr (by decide))⟩

/-- C2 counterexample: `MoveGroup` issued with a nil connection does not
return the not-connected error — it dereferences the nil connection and
crashes, refuting the claim that every transport operation (including
Rename/MoveGroup) fails fast without crashing. -/
theorem MoveGroup_nil_connection_crashes :
    Client.MoveGroup ⟨none, "DC=example,DC=com"⟩ "CN=g,OU=a,DC=example,DC=com"
      "OU=b,DC=example,DC=com" = .crash := by
  rfl

/-- C2 (amended): `Search`, `Add`, `Modify` and `Delete` fail fast with
the not-connected error when the client's connection is nil, performing
no directory call; `MoveGroup` is the exception — it performs no nil
check (see the counterexample). -/
theorem transport_ops_fail_fast_when_disconnected (base : String) (sreq : SearchRequest)
    (areq : AddRequest) (mreq : ModifyRequest) (dn : String) :
    Client.Search ⟨none, base⟩ sreq = .err "LDAP connection is not established" ∧
    Client.Add ⟨none, base⟩ areq = .err "LDAP connection is not established" ∧
    Client.Modify ⟨none, base⟩ mreq = .err "LDAP connection is not established" ∧
    Client.Delete ⟨none, base⟩ dn = .err "LDAP connection is not established" :=
  ⟨rfl, rfl, rfl, rfl⟩

/-- C10: splitting any DN string on `","` yields at least one component,
so `MoveGroup`'s invalid-DN-format branch is unreachable: the operation
always proceeds to issue the rename with the first comma-separated
component of the current DN as the new RDN. -/
theorem MoveGroup_invalid_dn_unreachable (c : Client) (currentDN newParentDN : String) :
    1 ≤ (goSplit currentDN ',').length ∧
    ∃ cn rest, goSplit currentDN ',' = cn :: rest ∧
      Client.MoveGroup c currentDN newParentDN
        = Client.MoveGroupRename c cn currentDN newParentDN := by
  have hlen : (goSplit currentDN ',').length = currentDN.data.count ',' + 1 := by
    unfold goSplit
    rw [List.length_map, goSplitCh_length]
  refine ⟨by omega, ?_⟩
  obtain ⟨cn, rest, hsp⟩ :=
    List.exists_cons_of_ne_nil (l := goSplit currentDN ',') (by
      intro h0
      rw [h0] at hlen
      simp at hlen)
  refine ⟨cn, rest, hsp, ?_⟩
  unfold Client.MoveGroup
  rw [hsp]

set_option maxRecDepth 8192 in
/-- C1: deleting an absent DN does not report success.  The go-ldap
transport reports the absence as `LDAP Result Code 32 "No Such Object"`
(capitalized), the repository's wrappers add only `failed to delete
group …`/`LDAP delete failed` text, and the resource's case-sensitive
check for the substring `not found` therefore misses it, so a diagnostic
is added — against the spec's (and the code comment's) stated intent of
an idempotent delete. -/
theorem GroupResourceDelete_absent_dn_adds_error :
    (GroupResource.Delete
        ⟨some ⟨[], "0000208D: NameErr: DSID-0310020A"⟩, "DC=example,DC=com"⟩
        "CN=ghost,OU=Groups,DC=example,DC=com").1
      = some ("Unable to delete group, got error: failed to delete group CN=ghost,OU=Groups,DC=example,DC=com: LDAP delete failed: LDAP Result Code 32 \x22No Such Object\x22: 0000208D: NameErr: DSID-0310020A") := by
  decide

set_option maxRecDepth 8192 in
/-- C6: removing an absent membership edge does not report success.
With the member value absent the server answers `No Such Attribute`,
with the group absent `No Such Object` — both capitalized go-ldap texts
that the resource's case-sensitive checks for `not found`, `does not
exist` and `no such object` miss, so a diagnostic is added in both
scenarios, against the stated already-removed-is-fine intent. -/
theorem GroupMembershipDelete_absent_edge_adds_error :
    (GroupMembershipResource.Delete
        ⟨some ⟨[⟨"CN=g,DC=x", [("objectClass", ["top", "group"]),
          ("member", ["CN=w,DC=x"])]⟩], "00002085: AtrErr: DSID-03151F03"⟩, "DC=x"⟩
        "CN=g,DC=x" "CN=u,DC=x").1.isSome = true ∧
    (GroupMembershipResource.Delete
        ⟨some ⟨[], "0000208D: NameErr: DSID-0310020A"⟩, "DC=x"⟩
        "CN=g,DC=x" "CN=u,DC=x").1.isSome = true := by
  decide

/-- C4: `CreateGroup` constructs the DN as `CN=<EscapeDN cn>,<ouPath>`,
sets `objectClass` to `top`/`group`, sets `cn`, `name` and
`sAMAccountName` all to the raw `cn`, includes a `description` attribute
exactly when the description is non-empty, sets `groupType` to the
decimal rendering of the supplied signed integer, and after a successful
add re-reads the created object by that DN to produce the returned
group. -/
theorem CreateGroup_builds_and_rereads (ou cn desc : String) (g : Int) (d : List Entry)
    (diag base : String)
    (hfresh : ∀ e ∈ d, e.dn ≠ "CN=" ++ EscapeDN cn ++ "," ++ ou) :
    let dn := "CN=" ++ EscapeDN cn ++ "," ++ ou
    let req := buildGroupAddRequest dn cn desc g
    req.dn = dn ∧
    Entry.getAttributeValues ⟨dn, req.attrs⟩ "objectClass" = ["top", "group"] ∧
    Entry.getAttributeValues ⟨dn, req.attrs⟩ "cn" = [cn] ∧
    Entry.getAttributeValues ⟨dn, req.attrs⟩ "name" = [cn] ∧
    Entry.getAttributeValues ⟨dn, req.attrs⟩ "sAMAccountName" = [cn] ∧
    Entry.getAttributeValues ⟨dn, req.attrs⟩ "groupType" = [renderInt g] ∧
    ((req.attrs.map Prod.fst).contains "description" = true ↔ desc ≠ "") ∧
    Client.CreateGroup ⟨some ⟨d, diag⟩, base⟩ ou cn desc g
      = Client.GetGroup ⟨some ⟨d ++ [⟨dn, req.attrs⟩], diag⟩, base⟩ dn := by
  refine ⟨rfl, ?_, ?_, ?_, ?_, ?_, ?_, ?_⟩
  · by_cases hd : desc = "" <;>
      simp [buildGroupAddRequest, Entry.getAttributeValues, List.find?, hd]
  · by_cases hd : desc = "" <;>
      simp [buildGroupAddRequest, Entry.getAttributeValues, List.find?, hd]
  · by_cases hd : desc = "" <;>
      simp [buildGroupAddRequest, Entry.getAttributeValues, List.find?, hd]
  · by_cases hd : desc = "" <;>
      simp [buildGroupAddRequest, Entry.getAttributeValues, List.find?, hd]
  · by_cases hd : desc = "" <;>
      simp [buildGroupAddRequest, Entry.getAttributeValues, List.find?, hd]
  · by_cases hd : desc = "" <;> simp [buildGroupAddRequest, hd]
  · rw [CreateGroup_fresh d diag base ou cn desc g hfresh,
      GetGroup_fresh d diag base _ _ hfresh
        (evalFilter_addRequest ("CN=" ++ EscapeDN cn ++ "," ++ ou) cn desc g),
      groupFromEntry_addRequest]

/-- Witness for C4 at a concrete creation (with and without a
description), projecting the groupType attribute fact and the
re-read equation. -/
theorem CreateGroup_builds_and_rereads_witness :
    Entry.getAttributeValues
        ⟨"CN=" ++ EscapeDN "eng" ++ "," ++ "OU=Groups,DC=example,DC=com",
          (buildGroupAddRequest ("CN=" ++ EscapeDN "eng" ++ "," ++ "OU=Groups,DC=example,DC=com")
            "eng" "Engineering team" (-2147483646)).attrs⟩ "groupType"
      = [renderInt (-2147483646)] ∧
    ((buildGroupAddRequest ("CN=" ++ EscapeDN "eng" ++ "," ++ "OU=Groups,DC=example,DC=com")
        "eng" "" (-2147483646)).attrs.map Prod.fst).contains "description" = false ∧
    Client.CreateGroup ⟨some ⟨[], ""⟩, "DC=example,DC=com"⟩ "OU=Groups,DC=example,DC=com"
        "eng" "Engineering team" (-2147483646)
      = Client.GetGroup
          ⟨some ⟨[⟨"CN=" ++ EscapeDN "eng" ++ "," ++ "OU=Groups,DC=example,DC=com",
            (buildGroupAddRequest
              ("CN=" ++ EscapeDN "eng" ++ "," ++ "OU=Groups,DC=example,DC=com")
              "eng" "Engineering team" (-2147483646)).attrs⟩], ""⟩, "DC=example,DC=com"⟩
          ("CN=" ++ EscapeDN "eng" ++ "," ++ "OU=Groups,DC=example,DC=com") := by
  have h1 := CreateGroup_builds_and_rereads "OU=Groups,DC=example,DC=com" "eng"
    "Engineering team" (-2147483646) [] "" "DC=example,DC=com" (by simp)
  have h2 := CreateGroup_builds_and_rereads "OU=Groups,DC=example,DC=com" "eng"
    "" (-2147483646) [] "" "DC=example,DC=com" (by simp)
  refine ⟨h1.2.2.2.2.2.1, ?_, h1.2.2.2.2.2.2.2⟩
  have h3 := h2.2.2.2.2.2.2.1
  simp at h3
  simpa using h3

/-- C8: for every int32-range group type, creating a group and
immediately reading it back through the embedded client (the directory
faithfully storing the written attribute) yields the same group-type
value when parsed the way the group resource parses it
(`strconv.ParseInt`). -/
theorem groupType_roundtrip (g : Int) (hlo : -(2 ^ 31) ≤ g) (hhi : g < 2 ^ 31)
    (ou cn desc diag base : String) (d : List Entry)
    (hfresh : ∀ e ∈ d, e.dn ≠ "CN=" ++ EscapeDN cn ++ "," ++ ou) :
    ∃ grp c2, Client.CreateGroup ⟨some ⟨d, diag⟩, base⟩ ou cn desc g = .ok (grp, c2) ∧
      goParseInt64 grp.groupType = some g := by
  refine ⟨_, _, CreateGroup_fresh d diag base ou cn desc g hfresh, ?_⟩
  show goParseInt64 (renderInt g) = some g
  exact goParseInt64_renderInt g (by omega) (by omega)

/-- Witness for C8 at the global-security group type `-2147483646`. -/
theorem groupType_roundtrip_witness :
    ∃ grp c2, Client.CreateGroup ⟨some ⟨[], ""⟩, "DC=x"⟩ "OU=Groups,DC=x" "eng" ""
        (-2147483646) = .ok (grp, c2) ∧
      goParseInt64 grp.groupType = some (-2147483646) :=
  groupType_roundtrip (-2147483646) (by decide) (by decide) "OU=Groups,DC=x" "eng" ""
    "" "DC=x" [] (by simp)
